import Mathlib

/-!
Verification of the client-side video analysis pipeline of the
concrete-crack-detection repository (frontend/src/VideoAnalyzer.jsx).

Numbers are modelled as exact rationals (`ℚ`); JavaScript's `Math.round`,
`Math.floor`, `%` and `toFixed(3)` are embedded as the corresponding exact
operations on `ℚ`/`ℤ`.  Fallible operations are embedded with `Except`/`Option`.
-/

/- ── JS numeric helpers ──────────────────────────────────────────────── -/

/-- JavaScript `Math.round` for the non-negative values appearing here:
round half up, i.e. `⌊x + 1/2⌋`. -/
def jsRound (x : ℚ) : ℤ := ⌊x + 1/2⌋

/-- JavaScript `%` (remainder, truncating toward zero).  All uses in the
pipeline have a non-negative dividend and positive divisor, where this is
`a - b·⌊a/b⌋`. -/
def jsMod (a b : ℚ) : ℚ :=
  a - b * ((if 0 ≤ a / b then ⌊a / b⌋ else ⌈a / b⌉ : ℤ) : ℚ)

/-- A JavaScript number as seen through `isFinite`: either a finite value,
or one of the non-finite values `NaN`/`±Infinity`. -/
inductive JSNum where
  | finite (q : ℚ)
  | nan
  | inf
  | negInf
deriving DecidableEq, Repr

/-- `isFinite` on a `JSNum`. -/
def JSNum.isFiniteJS : JSNum → Bool
  | .finite _ => true
  | _ => false

/- ── Helpers from VideoAnalyzer.jsx ──────────────────────────────────── -/

/-- `String.padStart(2, '0')` as used on the seconds field. -/
def padStart2Zero (str : String) : String :=
  if str.length < 2 then String.mk (List.replicate (2 - str.length) '0') ++ str
  else str

/-- `formatTime(sec)`: format seconds as `"m:ss"`
(`m = Math.floor(sec / 60)`, `s = Math.floor(sec % 60)`). -/
def formatTime (sec : ℚ) : String :=
  let m : ℤ := ⌊sec / 60⌋
  let s : ℤ := ⌊jsMod sec 60⌋
  toString m ++ ":" ++ padStart2Zero (toString s)

/-- Fuel-indexed body of `chunk`; the fuel bounds the number of loop
iterations (`i = 0, size, 2·size, …`), which is at most the array length
for `size ≥ 1`. -/
def chunkFuel {α : Type} (size : ℕ) : ℕ → List α → List (List α)
  | 0, _ => []
  | _, [] => []
  | fuel + 1, xs@(_ :: _) => xs.take size :: chunkFuel size fuel (xs.drop size)

/-- `chunk(arr, size)`: split an array into consecutive slices of `size`. -/
def chunk {α : Type} (arr : List α) (size : ℕ) : List (List α) :=
  chunkFuel size arr.length arr

/- ── Severity helpers (getSeverity and sevOf) ────────────────────────── -/

/-- A severity tier label. -/
inductive Severity where
  | Critical
  | High
  | Moderate
deriving DecidableEq, Repr

/-- Return value of the UI helper `getSeverity`. -/
structure SeverityInfo where
  label : Severity
  color : String
  bg : String
  border : String
deriving DecidableEq, Repr

/-- `getSeverity(rawScore)` from VideoAnalyzer.jsx: thresholds on
`pct = rawScore * 100`. -/
def getSeverity (rawScore : ℚ) : SeverityInfo :=
  let pct := rawScore * 100
  if pct ≥ 85 then
    ⟨.Critical, "#ef4444", "rgba(239,68,68,0.12)", "rgba(239,68,68,0.3)"⟩
  else if pct ≥ 65 then
    ⟨.High, "#f97316", "rgba(249,115,22,0.12)", "rgba(249,115,22,0.3)"⟩
  else
    ⟨.Moderate, "#eab308", "rgba(234,179,8,0.12)", "rgba(234,179,8,0.3)"⟩

/-- Return value of the PDF helper `sevOf`. -/
structure SevOfInfo where
  label : Severity
  rgb : ℕ × ℕ × ℕ
deriving DecidableEq, Repr

/-- `sevOf(score)` from `generateVideoReport`: thresholds directly on the
raw score. -/
def sevOf (score : ℚ) : SevOfInfo :=
  if score ≥ 0.85 then ⟨.Critical, (220, 38, 38)⟩
  else if score ≥ 0.65 then ⟨.High, (249, 115, 22)⟩
  else ⟨.Moderate, (180, 140, 0)⟩

/- ── Frame-rate probe (detectFPS) ────────────────────────────────────── -/

/-- `SAMPLE_EVERY`: one sample per this many source frames. -/
def SAMPLE_EVERY : ℚ := 10

/-- `FRAMES_TO_MEASURE`: number of frames played during the FPS probe. -/
def FRAMES_TO_MEASURE : ℕ := 10

/-- Observable state of the probed `<video>` element. -/
structure VideoState where
  paused : Bool
  currentTime : ℚ
  muted : Bool
deriving DecidableEq, Repr

/-- The environment behaviours that select `detectFPS`'s exit path:
`requestVideoFrameCallback` unsupported; `play()` rejecting; the 5-second
safety timeout firing before `FRAMES_TO_MEASURE` frames arrived; or the
full list of `FRAMES_TO_MEASURE` reported media times arriving. -/
inductive ProbeScenario where
  | noRVFC
  | playFails
  | timeoutFired
  | framesDelivered (mediaTimes : List ℚ)
deriving DecidableEq, Repr

/-- The loop `for (i = 1; …) { d = t[i] - t[i-1]; if (d > 0) push(d) }`:
positive consecutive deltas of the recorded media times. -/
def positiveDeltas : List ℚ → List ℚ
  | a :: rest@(b :: _) =>
      if 0 < b - a then (b - a) :: positiveDeltas rest else positiveDeltas rest
  | _ => []

/-- Insert into a sorted list (ascending). -/
def insertSorted (x : ℚ) : List ℚ → List ℚ
  | [] => [x]
  | y :: ys => if x ≤ y then x :: y :: ys else y :: insertSorted x ys

/-- `intervals.sort((a, b) => a - b)`: ascending numeric sort. -/
def sortAsc (l : List ℚ) : List ℚ := l.foldr insertSorted []

/-- The measurement branch of `detectFPS` once all media times are in:
median positive inter-frame interval, inverted and rounded, clamped to
`(0, 120]` with fallback 30; an empty interval list also falls back to 30. -/
def computeFPS (mediaTimes : List ℚ) : ℤ :=
  let intervals := positiveDeltas mediaTimes
  if intervals.isEmpty then 30
  else
    let sorted := sortAsc intervals
    let median := sorted.getD (sorted.length / 2) 0
    let fps := jsRound (1 / median)
    if 0 < fps ∧ fps ≤ 120 then fps else 30

/-- `detectFPS(videoEl)`: returns the estimated rate together with the final
state of the video element.  On the three `safeResolve` paths the element is
paused and rewound to 0.  On the `play().catch` path the code only resolves:
`currentTime = 0` was already set before `play()`, and a rejected `play()`
means playback never started, so `paused` keeps its prior value. -/
def detectFPS (scenario : ProbeScenario) (v : VideoState) : ℤ × VideoState :=
  match scenario with
  | .noRVFC => (30, v)
  | .playFails =>
      (30, { v with muted := true, currentTime := 0 })
  | .timeoutFired =>
      (30, { paused := true, currentTime := 0, muted := true })
  | .framesDelivered mediaTimes =>
      (computeFPS mediaTimes, { paused := true, currentTime := 0, muted := true })

/- ── Frame sampler (extractFrames) ───────────────────────────────────── -/

/-- One extracted sample: the timestamp recorded with the JPEG blob
(the blob's pixel content is outside the data model). -/
structure Frame where
  timestamp : ℚ
deriving DecidableEq, Repr

/-- `parseFloat(t.toFixed(3))` for `t ≥ 0`: round to the nearest
thousandth. -/
def toFixed3 (t : ℚ) : ℚ := (jsRound (t * 1000) : ℚ) / 1000

/-- `frameInterval = Math.min(SAMPLE_EVERY / fps, duration)`. -/
def frameInterval (duration fps : ℚ) : ℚ := min (SAMPLE_EVERY / fps) duration

/-- The loop `for (t = 0; t < duration; t += frameInterval)`, fuel-indexed;
each iteration with `t < duration` emits `t`. -/
def sampleLoop (duration interval : ℚ) : ℕ → ℚ → List ℚ
  | 0, _ => []
  | fuel + 1, t =>
      if t < duration then t :: sampleLoop duration interval fuel (t + interval)
      else []

/-- The raw (pre-rounding) sample times of `extractFrames`:
`0, Δ, 2Δ, …` while `< duration`.  For `Δ > 0` the loop runs
`⌈duration/Δ⌉` times, so that much fuel (plus one) suffices. -/
def sampleTimes (duration interval : ℚ) : List ℚ :=
  sampleLoop duration interval (⌈duration / interval⌉.toNat + 1) 0

/-- `extractFrames(videoEl, canvasEl, fps)`: throws when the duration is
non-finite or non-positive, otherwise returns the sampled frames (with
timestamps `parseFloat(t.toFixed(3))`) and the actual extracted count. -/
def extractFrames (duration : JSNum) (fps : ℚ) : Except String (List Frame × ℕ) :=
  match duration with
  | .finite d =>
      if d ≤ 0 then .error "Unable to read video duration."
      else
        let frames := (sampleTimes d (frameInterval d fps)).map
          (fun t => ({ timestamp := toFixed3 t } : Frame))
        .ok (frames, frames.length)
  | _ => .error "Unable to read video duration."

/- ── Dispatch queue (sendFrame) ──────────────────────────────────────── -/

/-- Per-character prefix match of a pattern against a character list. -/
def prefixMatch : List Char → List Char → Bool
  | [], _ => true
  | _ :: _, [] => false
  | p :: ps, c :: cs => p = c && prefixMatch ps cs

/-- Substring test on character lists (sliding window). -/
def hasSubstr (pat : List Char) : List Char → Bool
  | [] => prefixMatch pat []
  | s@(_ :: rest) => prefixMatch pat s || hasSubstr pat rest

/-- `data.result.includes('CRACK')` (combined with the truthiness guard
`data.result && …`: an absent field is modelled as `none`, and the empty
string — falsy in JS — cannot contain `CRACK` anyway). -/
def containsCRACK (s : String) : Bool := hasSubstr "CRACK".toList s.toList

/-- The `/predict` response body: the verdict string (`none` when the field
is absent or falsy), the formatted confidence, the raw probability score,
and the optional Grad-CAM overlay. -/
structure PredictResponse where
  result : Option String
  confidence : ℚ
  raw_score : ℚ
  heatmap : Option String
deriving DecidableEq, Repr

/-- Outcome of one network attempt: `failure` covers every way `axios.post`
can throw (network error, server error, timeout); `success` carries the
parsed response body. -/
inductive RequestOutcome where
  | failure
  | success (data : PredictResponse)
deriving DecidableEq, Repr

/-- One entry of the incident log. -/
structure Incident where
  timestamp : ℚ
  timestampLabel : String
  confidence : ℚ
  raw_score : ℚ
  heatmap : Option String
  label : String
deriving DecidableEq, Repr

/-- `sendFrame({blob, timestamp})`: one POST to `/predict`; returns an
incident record exactly when the response's `result` field is present and
contains `CRACK`; any thrown error is caught (logged) and, like a negative
or malformed response, falls through to `return null`. -/
def sendFrame (timestamp : ℚ) (outcome : RequestOutcome) : Option Incident :=
  match outcome with
  | .failure => none
  | .success data =>
      match data.result with
      | some r =>
          if containsCRACK r then
            some { timestamp := timestamp
                   timestampLabel := formatTime timestamp
                   confidence := data.confidence
                   raw_score := data.raw_score
                   heatmap := data.heatmap
                   label := r }
          else none
      | none => none

/-- The dispatch operation viewed against a sequence of outcomes that
successive attempts for this frame would produce: as implemented,
`sendFrame` issues exactly one request, so only the first element is ever
consumed (no element at all behaves like a thrown request, i.e. null). -/
def sendFrameAttempts (timestamp : ℚ) (attempts : List RequestOutcome) : Option Incident :=
  match attempts with
  | [] => none
  | first :: _ => sendFrame timestamp first

/- ── Orchestrator (handleStartAnalysis) ──────────────────────────────── -/

/-- The batch loop's progress updates: for each batch,
`processed += batch.length; setProgress({min(processed, total), total})`. -/
def snapshotsAux (total : ℕ) : List (List Frame) → ℕ → List (ℕ × ℕ)
  | [], _ => []
  | b :: bs, processed =>
      let p := processed + b.length
      (min p total, total) :: snapshotsAux total bs p

/-- The sequence of `(processed, total)` snapshots emitted by the batch
loop of `handleStartAnalysis` (batches of 3). -/
def dispatchSnapshots (frames : List Frame) : List (ℕ × ℕ) :=
  snapshotsAux frames.length (chunk frames 3) 0

/-- All progress snapshots of a run, including the initial
`setProgress({processed: 0, total: totalSamples})`. -/
def initAndSnapshots (frames : List Frame) : List (ℕ × ℕ) :=
  (0, frames.length) :: dispatchSnapshots frames

/-- The incident log after the first `k` batches have settled: per batch,
`results.filter(Boolean)` appended in order (`prev ++ cracks`).  Outcomes
are keyed by the frame's timestamp. -/
def incidentLogAfter (frames : List Frame) (oracle : ℚ → RequestOutcome) (k : ℕ) :
    List Incident :=
  (((chunk frames 3).take k).map
    (fun batch => batch.filterMap (fun f => sendFrame f.timestamp (oracle f.timestamp)))).flatten

/- ── App-level state (handleFile vs. an in-flight run) ───────────────── -/

/-- The pipeline-relevant React state: the progress counters and the
incident log. -/
structure AppState where
  progress : ℕ × ℕ
  incidentLog : List Incident
deriving DecidableEq, Repr

/-- Events that mutate that state: `handleFile` accepting a (valid) video
file, and one batch of some run settling with its positive results and the
run's own `processed`/`total` counters. -/
inductive AppEvent where
  | fileSelected
  | batchSettled (cracks : List Incident) (processed total : ℕ)
deriving DecidableEq, Repr

/-- One state transition.  `handleFile` resets the log and progress
unconditionally.  A settling batch — the code never checks which run it
belongs to — appends its cracks to the current log
(`setIncidentLog(prev => [...prev, ...cracks])`, only issued when
nonempty) and overwrites progress with its own run's counters. -/
def appStep (s : AppState) : AppEvent → AppState
  | .fileSelected => { progress := (0, 0), incidentLog := [] }
  | .batchSettled cracks processed total =>
      { progress := (min processed total, total)
        incidentLog :=
          if 0 < cracks.length then s.incidentLog ++ cracks else s.incidentLog }

/-- Fold a sequence of events over a starting state. -/
def runTrace (init : AppState) (events : List AppEvent) : AppState :=
  events.foldl appStep init

/- ── Claim theorems ──────────────────────────────────────────────────── -/

/-- C1 (code bug): the dispatch makes no retries at all.  For a frame whose
request fails twice and would succeed with a CRACK payload on the third
attempt, `sendFrame` — which issues exactly one request — records `none`,
even though a single attempt against the success payload would have produced
the incident record.  This contradicts the claimed retry-with-backoff
behaviour (which the repository's own README also advertises). -/
theorem C1_no_retry :
    sendFrameAttempts 2
      [RequestOutcome.failure, RequestOutcome.failure,
       RequestOutcome.success ⟨some "CRACK DETECTED", 97/100, 9/10, some "hm"⟩] = none ∧
    sendFrame 2 (RequestOutcome.success ⟨some "CRACK DETECTED", 97/100, 9/10, some "hm"⟩)
      = some ⟨2, formatTime 2, 97/100, 9/10, some "hm", "CRACK DETECTED"⟩ := by
  constructor
  · rfl
  · rfl

/-- C3: the sampling interval is `min(SAMPLE_EVERY / fps, duration)` with
stride `SAMPLE_EVERY = 10`, and for `0 < fps ≤ 120` and `0 < duration` it
satisfies `0 < interval ≤ duration`. -/
theorem C3_interval_bounds (fps d : ℚ) (h0 : 0 < fps) (h120 : fps ≤ 120)
    (hd : 0 < d) :
    SAMPLE_EVERY = 10 ∧
    frameInterval d fps = min (10 / fps) d ∧
    0 < frameInterval d fps ∧ frameInterval d fps ≤ d := by
  refine ⟨rfl, rfl, ?_, min_le_right _ _⟩
  exact lt_min (div_pos (by norm_num [SAMPLE_EVERY]) h0) hd

/-- Witness for C3 at `fps = 10`, `duration = 5`. -/
theorem C3_interval_bounds_witness :
    SAMPLE_EVERY = 10 ∧
    frameInterval 5 10 = min (10 / 10) 5 ∧
    0 < frameInterval 5 10 ∧ frameInterval 5 10 ≤ 5 :=
  C3_interval_bounds 10 5 (by norm_num) (by norm_num) (by norm_num)

/-- C5: severity is a pure function of the confidence score with tiers
Critical (`c ≥ 0.85`), High (`0.65 ≤ c < 0.85`), Moderate (`c < 0.65`);
the UI helper `getSeverity` and the PDF helper `sevOf` agree on every
score, and the five reference scores land on the stated tiers. -/
theorem C5_severity_tiers (c : ℚ) :
    (getSeverity c).label = (sevOf c).label ∧
    ((sevOf c).label = Severity.Critical ↔ 85/100 ≤ c) ∧
    ((sevOf c).label = Severity.High ↔ 65/100 ≤ c ∧ c < 85/100) ∧
    ((sevOf c).label = Severity.Moderate ↔ c < 65/100) ∧
    (sevOf (90/100)).label = Severity.Critical ∧
    (sevOf (70/100)).label = Severity.High ∧
    (sevOf (40/100)).label = Severity.Moderate ∧
    (sevOf (65/100)).label = Severity.High ∧
    (sevOf (85/100)).label = Severity.Critical := by
  have hb : (sevOf c).label = if 85/100 ≤ c then Severity.Critical
      else if 65/100 ≤ c then Severity.High else Severity.Moderate := by
    simp only [sevOf, ge_iff_le]
    norm_num
    split_ifs <;> rfl
  refine ⟨?_, ?_, ?_, ?_, by norm_num [sevOf], by norm_num [sevOf], by norm_num [sevOf],
    by norm_num [sevOf], by norm_num [sevOf]⟩
  · rw [hb]
    simp only [getSeverity, ge_iff_le]
    split_ifs <;> first | rfl | (exfalso; linarith)
  · rw [hb]
    split_ifs with h1 h2 <;> simp [h1]
  · rw [hb]
    split_ifs with h1 h2
    · simp [show ¬(c < 85/100) from not_lt.mpr h1]
    · simp [h2, not_le.mp h1]
    · simp [h2]
  · rw [hb]
    split_ifs with h1 h2
    · simp [not_lt.mpr (le_trans (show (65:ℚ)/100 ≤ 85/100 by norm_num) h1)]
    · simp [not_lt.mpr h2]
    · simp [not_le.mp h2]

/-- C8: frame extraction fails with the media-read error iff the duration is
non-finite or non-positive; every finite positive duration extracts
without this error. -/
theorem C8_media_read_error (dur : JSNum) (fps : ℚ) :
    (∃ e, extractFrames dur fps = Except.error e) ↔
      ∀ d, dur = JSNum.finite d → d ≤ 0 := by
  cases dur with
  | finite d =>
      simp only [extractFrames]
      split_ifs with h
      · simp only [JSNum.finite.injEq]
        constructor
        · rintro - d' rfl; exact h
        · intro _; exact ⟨_, rfl⟩
      · simp only [JSNum.finite.injEq]
        constructor
        · rintro ⟨e, he⟩; cases he
        · intro hall; exact absurd (hall d rfl) h
  | nan =>
      constructor
      · rintro - d hd; cases hd
      · intro _; exact ⟨_, rfl⟩
  | inf =>
      constructor
      · rintro - d hd; cases hd
      · intro _; exact ⟨_, rfl⟩
  | negInf =>
      constructor
      · rintro - d hd; cases hd
      · intro _; exact ⟨_, rfl⟩

/-- C9 counterexample: with the old run at `processed = 2, total = 10`,
selecting a new file resets state, but a batch of the abandoned run that
settles afterwards appends its positive result to the fresh incident log and
overwrites the fresh progress — the abandoned run's work is not discarded. -/
theorem C9_stale_batch_counterexample :
    (runTrace { progress := (2, 10), incidentLog := [] }
        [AppEvent.fileSelected,
         AppEvent.batchSettled [⟨3, "0:03", 97/100, 9/10, some "hm", "CRACK DETECTED"⟩] 4 10]).incidentLog
      = [⟨3, "0:03", 97/100, 9/10, some "hm", "CRACK DETECTED"⟩] ∧
    (runTrace { progress := (2, 10), incidentLog := [] }
        [AppEvent.fileSelected,
         AppEvent.batchSettled [⟨3, "0:03", 97/100, 9/10, some "hm", "CRACK DETECTED"⟩] 4 10]).progress
      = (4, 10) := by
  constructor <;> rfl

/-- C9 (amended): selecting a new video file immediately resets RunProgress
to `(0, 0)` and clears the incident log, but the in-flight run is not
cancelled: any batch of the abandoned run settling after the reset appends
its positive results to the new state and overwrites progress with the old
run's counters. -/
theorem C9_reset_without_cancellation (s : AppState) (cracks : List Incident)
    (p t : ℕ) :
    (appStep s AppEvent.fileSelected).progress = (0, 0) ∧
    (appStep s AppEvent.fileSelected).incidentLog = [] ∧
    (appStep (appStep s AppEvent.fileSelected)
        (AppEvent.batchSettled cracks p t)).incidentLog = cracks ∧
    (appStep (appStep s AppEvent.fileSelected)
        (AppEvent.batchSettled cracks p t)).progress = (min p t, t) := by
  refine ⟨rfl, rfl, ?_, rfl⟩
  simp only [appStep]
  split_ifs with h
  · simp
  · have : cracks = [] := List.length_eq_zero.mp (Nat.eq_zero_of_not_pos h)
    simp [this]

/-- C10: `sendFrame` is total at the dispatch interface — it returns an
incident record exactly when the request succeeded and the response's
`result` field is present and contains the substring `CRACK`; a failed
request, a missing `result` field and a non-matching verdict are all
indistinguishably mapped to `none`. -/
theorem C10_sendFrame_total (t : ℚ) (o : RequestOutcome) :
    (∃ inc, sendFrame t o = some inc) ↔
      ∃ data r, o = RequestOutcome.success data ∧ data.result = some r ∧
        containsCRACK r = true := by
  cases o with
  | failure => simp [sendFrame]
  | success data =>
      cases hr : data.result with
      | none => simp [sendFrame, hr]
      | some r =>
          simp only [sendFrame, hr]
          by_cases hc : containsCRACK r
          · simp [hc, hr]
          · simp [hc, hr]

/-- C2: on each of the four exit paths of the FPS probe — successful
measurement, zero-intervals fallback, 5-second timeout, playback failing to
start — the video element ends paused at time zero (for the play-failure
path the element was necessarily paused already, a rejected `play()` never
having started playback), and the returned value is the measured rate or
the default 30. -/
theorem C2_probe_restores_video (scenario : ProbeScenario) (v : VideoState)
    (hpaused : v.paused = true) (hsc : scenario ≠ ProbeScenario.noRVFC) :
    (detectFPS scenario v).2.paused = true ∧
    (detectFPS scenario v).2.currentTime = 0 ∧
    ((detectFPS scenario v).1 = 30 ∨
      ∃ mts, scenario = ProbeScenario.framesDelivered mts ∧
        (detectFPS scenario v).1 = computeFPS mts) := by
  cases scenario with
  | noRVFC => exact absurd rfl hsc
  | playFails => exact ⟨hpaused, rfl, Or.inl rfl⟩
  | timeoutFired => exact ⟨rfl, rfl, Or.inl rfl⟩
  | framesDelivered mts => exact ⟨rfl, rfl, Or.inr ⟨mts, rfl, rfl⟩⟩

/-- Witness for C2: the play-failure path on a paused element at time 7. -/
theorem C2_probe_restores_video_witness :
    (detectFPS ProbeScenario.playFails ⟨true, 7, false⟩).2.paused = true ∧
    (detectFPS ProbeScenario.playFails ⟨true, 7, false⟩).2.currentTime = 0 ∧
    ((detectFPS ProbeScenario.playFails ⟨true, 7, false⟩).1 = 30 ∨
      ∃ mts, ProbeScenario.playFails = ProbeScenario.framesDelivered mts ∧
        (detectFPS ProbeScenario.playFails ⟨true, 7, false⟩).1 = computeFPS mts) :=
  C2_probe_restores_video ProbeScenario.playFails ⟨true, 7, false⟩ rfl
    (fun h => nomatch h)

/- ── Sampler lemmas ──────────────────────────────────────────────────── -/

theorem sampleLoop_succ (d Δ : ℚ) (fuel : ℕ) (t : ℚ) :
    sampleLoop d Δ (fuel + 1) t =
      if t < d then t :: sampleLoop d Δ fuel (t + Δ) else [] := rfl

theorem sampleLoop_mem_lt {d Δ : ℚ} :
    ∀ (fuel : ℕ) (t x : ℚ), x ∈ sampleLoop d Δ fuel t → x < d := by
  intro fuel
  induction fuel with
  | zero => intro t x hx; simp [sampleLoop] at hx
  | succ n ih =>
      intro t x hx
      rw [sampleLoop_succ] at hx
      split_ifs at hx with h
      · rcases List.mem_cons.mp hx with rfl | hx'
        · exact h
        · exact ih _ _ hx'
      · simp at hx

theorem sampleLoop_mem_ge {d Δ : ℚ} (hΔ : 0 < Δ) :
    ∀ (fuel : ℕ) (t x : ℚ), x ∈ sampleLoop d Δ fuel t → t ≤ x := by
  intro fuel
  induction fuel with
  | zero => intro t x hx; simp [sampleLoop] at hx
  | succ n ih =>
      intro t x hx
      rw [sampleLoop_succ] at hx
      split_ifs at hx with h
      · rcases List.mem_cons.mp hx with rfl | hx'
        · exact le_refl x
        · exact le_trans (by linarith) (ih _ _ hx')
      · simp at hx

theorem sampleLoop_chain {d Δ : ℚ} (hΔ : 0 < Δ) :
    ∀ (fuel : ℕ) (t : ℚ), List.Chain' (· < ·) (sampleLoop d Δ fuel t) := by
  intro fuel
  induction fuel with
  | zero => intro t; simp [sampleLoop]
  | succ n ih =>
      intro t
      rw [sampleLoop_succ]
      split_ifs with h
      · refine List.chain'_cons'.mpr ⟨?_, ih _⟩
        intro b hb
        have hble := sampleLoop_mem_ge hΔ n (t + Δ) b (List.mem_of_mem_head? hb)
        linarith
      · simp

theorem sampleTimes_head {d Δ : ℚ} (hd : 0 < d) :
    sampleTimes d Δ = 0 :: sampleLoop d Δ (⌈d / Δ⌉.toNat) Δ := by
  unfold sampleTimes
  rw [sampleLoop_succ, if_pos hd, zero_add]

theorem frameInterval_five_ten : frameInterval 5 10 = 1 := by
  unfold frameInterval SAMPLE_EVERY
  norm_num

theorem sampleTimes_five_one : sampleTimes 5 1 = [0, 1, 2, 3, 4] := by
  have s1 : sampleLoop 5 1 1 5 = [] := by
    rw [show (1:ℕ) = 0 + 1 from rfl, sampleLoop_succ, if_neg (by norm_num)]
  have s2 : sampleLoop 5 1 2 4 = [4] := by
    rw [show (2:ℕ) = 1 + 1 from rfl, sampleLoop_succ, if_pos (by norm_num : (4:ℚ) < 5)]
    rw [show (4:ℚ) + 1 = 5 by norm_num, s1]
  have s3 : sampleLoop 5 1 3 3 = [3, 4] := by
    rw [show (3:ℕ) = 2 + 1 from rfl, sampleLoop_succ, if_pos (by norm_num : (3:ℚ) < 5)]
    rw [show (3:ℚ) + 1 = 4 by norm_num, s2]
  have s4 : sampleLoop 5 1 4 2 = [2, 3, 4] := by
    rw [show (4:ℕ) = 3 + 1 from rfl, sampleLoop_succ, if_pos (by norm_num : (2:ℚ) < 5)]
    rw [show (2:ℚ) + 1 = 3 by norm_num, s3]
  have s5 : sampleLoop 5 1 5 1 = [1, 2, 3, 4] := by
    rw [show (5:ℕ) = 4 + 1 from rfl, sampleLoop_succ, if_pos (by norm_num : (1:ℚ) < 5)]
    rw [show (1:ℚ) + 1 = 2 by norm_num, s4]
  have s6 : sampleLoop 5 1 6 0 = [0, 1, 2, 3, 4] := by
    rw [show (6:ℕ) = 5 + 1 from rfl, sampleLoop_succ, if_pos (by norm_num : (0:ℚ) < 5)]
    rw [show (0:ℚ) + 1 = 1 by norm_num, s5]
  have hfuel : (⌈(5:ℚ) / 1⌉).toNat + 1 = 6 := by
    rw [show ((⌈(5:ℚ)/1⌉ : ℤ)) = 5 by norm_num]
    rfl
  unfold sampleTimes
  rw [hfuel, s6]

theorem extractFrames_five_ten :
    extractFrames (JSNum.finite 5) 10 =
      Except.ok ([⟨0⟩, ⟨1⟩, ⟨2⟩, ⟨3⟩, ⟨4⟩], 5) := by
  simp only [extractFrames]
  rw [if_neg (by norm_num : ¬ (5:ℚ) ≤ 0), frameInterval_five_ten, sampleTimes_five_one]
  simp only [List.map_cons, List.map_nil, List.length_cons, List.length_nil]
  rw [show toFixed3 0 = 0 by norm_num [toFixed3, jsRound],
      show toFixed3 1 = 1 by norm_num [toFixed3, jsRound],
      show toFixed3 2 = 2 by norm_num [toFixed3, jsRound],
      show toFixed3 3 = 3 by norm_num [toFixed3, jsRound],
      show toFixed3 4 = 4 by norm_num [toFixed3, jsRound]]

theorem sampleTimes_short_clip : sampleTimes (6667/1000) (10/3) = [0, 10/3, 20/3] := by
  have s1 : sampleLoop (6667/1000) (10/3) 1 10 = [] := by
    rw [show (1:ℕ) = 0 + 1 from rfl, sampleLoop_succ, if_neg (by norm_num)]
  have s2 : sampleLoop (6667/1000) (10/3) 2 (20/3) = [20/3] := by
    rw [show (2:ℕ) = 1 + 1 from rfl, sampleLoop_succ,
        if_pos (by norm_num : (20:ℚ)/3 < 6667/1000)]
    rw [show (20:ℚ)/3 + 10/3 = 10 by norm_num, s1]
  have s3 : sampleLoop (6667/1000) (10/3) 3 (10/3) = [10/3, 20/3] := by
    rw [show (3:ℕ) = 2 + 1 from rfl, sampleLoop_succ,
        if_pos (by norm_num : (10:ℚ)/3 < 6667/1000)]
    rw [show (10:ℚ)/3 + 10/3 = 20/3 by norm_num, s2]
  have s4 : sampleLoop (6667/1000) (10/3) 4 0 = [0, 10/3, 20/3] := by
    rw [show (4:ℕ) = 3 + 1 from rfl, sampleLoop_succ,
        if_pos (by norm_num : (0:ℚ) < 6667/1000)]
    rw [show (0:ℚ) + 10/3 = 10/3 by norm_num, s3]
  have hfuel : (⌈(6667:ℚ)/1000 / (10/3)⌉).toNat + 1 = 4 := by
    rw [show (6667:ℚ)/1000 / (10/3) = 20001/10000 by norm_num]
    rw [show ((⌈(20001:ℚ)/10000⌉ : ℤ)) = 3 by rw [Int.ceil_eq_iff]; norm_num]
    rfl
  unfold sampleTimes
  rw [hfuel, s4]

/-- C4 counterexample: for duration `6.667` s (finite, positive) and probed
rate `3` fps (in `(0,120]`, giving the positive interval `10/3`), the
frames produced by `extractFrames` carry the timestamps
`0, 3.333, 6.667` — `toFixed(3)` rounds the raw time `20/3 = 6.6666…` up to
`6.667`, so the last produced timestamp is NOT strictly less than the
duration, refuting the claim as stated. -/
theorem C4_counterexample :
    extractFrames (JSNum.finite (6667/1000)) 3 =
      Except.ok ([⟨0⟩, ⟨3333/1000⟩, ⟨6667/1000⟩], 3) ∧
    ¬ (∀ f ∈ [({ timestamp := 0 } : Frame), ⟨3333/1000⟩, ⟨6667/1000⟩],
        f.timestamp < 6667/1000) := by
  constructor
  · simp only [extractFrames]
    rw [if_neg (by norm_num : ¬ (6667:ℚ)/1000 ≤ 0),
        show frameInterval (6667/1000) 3 = 10/3 by
          unfold frameInterval SAMPLE_EVERY; norm_num,
        sampleTimes_short_clip]
    simp only [List.map_cons, List.map_nil, List.length_cons, List.length_nil]
    rw [show toFixed3 0 = 0 by norm_num [toFixed3, jsRound],
        show toFixed3 (10/3) = 3333/1000 by norm_num [toFixed3, jsRound],
        show toFixed3 (20/3) = 6667/1000 by norm_num [toFixed3, jsRound]]
  · intro h
    have hlast := h ⟨6667/1000⟩ (by simp)
    exact absurd hlast (by norm_num)

/-- C4 (amended): for every positive duration and fps, the raw sample times
of `extractFrames` are non-empty, start at 0, are strictly increasing, and
all lie strictly below the duration; the frames actually produced carry
those times rounded to the nearest thousandth (`toFixed(3)`), which may
reach or exceed the duration by under half a millisecond; the 5-second
clip at 10 fps with stride 10 yields the interval 1 s and exactly the 5
samples `0…4`. -/
theorem C4_sample_schedule (d fps : ℚ) (hd : 0 < d) (hfps : 0 < fps) :
    sampleTimes d (frameInterval d fps) ≠ [] ∧
    (sampleTimes d (frameInterval d fps)).head? = some 0 ∧
    List.Chain' (· < ·) (sampleTimes d (frameInterval d fps)) ∧
    (∀ t ∈ sampleTimes d (frameInterval d fps), t < d) ∧
    extractFrames (JSNum.finite d) fps =
      Except.ok
        ((sampleTimes d (frameInterval d fps)).map
          (fun t => ({ timestamp := toFixed3 t } : Frame)),
         ((sampleTimes d (frameInterval d fps)).map
          (fun t => ({ timestamp := toFixed3 t } : Frame))).length) ∧
    extractFrames (JSNum.finite 5) 10 =
      Except.ok ([⟨0⟩, ⟨1⟩, ⟨2⟩, ⟨3⟩, ⟨4⟩], 5) ∧
    frameInterval 5 10 = 1 := by
  have hΔ : 0 < frameInterval d fps :=
    lt_min (div_pos (by norm_num [SAMPLE_EVERY]) hfps) hd
  refine ⟨?_, ?_, ?_, ?_, ?_, extractFrames_five_ten, frameInterval_five_ten⟩
  · rw [sampleTimes_head hd]
    exact List.cons_ne_nil _ _
  · rw [sampleTimes_head hd]
    rfl
  · unfold sampleTimes
    exact sampleLoop_chain hΔ _ _
  · intro t ht
    exact sampleLoop_mem_lt _ _ _ ht
  · simp only [extractFrames]
    rw [if_neg (not_le.mpr hd)]

/-- Witness for the amended C4 at duration 5 s and 10 fps. -/
theorem C4_sample_schedule_witness :
    sampleTimes 5 (frameInterval 5 10) ≠ [] ∧
    (sampleTimes 5 (frameInterval 5 10)).head? = some 0 ∧
    List.Chain' (· < ·) (sampleTimes 5 (frameInterval 5 10)) ∧
    (∀ t ∈ sampleTimes 5 (frameInterval 5 10), t < 5) ∧
    extractFrames (JSNum.finite 5) 10 =
      Except.ok
        ((sampleTimes 5 (frameInterval 5 10)).map
          (fun t => ({ timestamp := toFixed3 t } : Frame)),
         ((sampleTimes 5 (frameInterval 5 10)).map
          (fun t => ({ timestamp := toFixed3 t } : Frame))).length) ∧
    extractFrames (JSNum.finite 5) 10 =
      Except.ok ([⟨0⟩, ⟨1⟩, ⟨2⟩, ⟨3⟩, ⟨4⟩], 5) ∧
    frameInterval 5 10 = 1 :=
  C4_sample_schedule 5 10 (by norm_num) (by norm_num)

/- ── Batch/progress lemmas ───────────────────────────────────────────── -/

theorem chunkFuel_flatten {α : Type} (s : ℕ) (hs : 0 < s) :
    ∀ (n : ℕ) (xs : List α), xs.length ≤ n → (chunkFuel s n xs).flatten = xs := by
  intro n
  induction n with
  | zero =>
      intro xs h
      have : xs = [] := List.eq_nil_of_length_eq_zero (Nat.le_zero.mp h)
      subst this
      rfl
  | succ m ih =>
      intro xs h
      cases xs with
      | nil => rfl
      | cons x rest =>
          show ((x :: rest).take s :: chunkFuel s m ((x :: rest).drop s)).flatten
              = x :: rest
          rw [List.flatten_cons, ih _ (by simp at h ⊢; omega)]
          exact List.take_append_drop s (x :: rest)

theorem chunk_flatten {α : Type} (xs : List α) (s : ℕ) (hs : 0 < s) :
    (chunk xs s).flatten = xs :=
  chunkFuel_flatten s hs xs.length xs le_rfl

theorem chunk_ne_nil {α : Type} (x : α) (xs : List α) (s : ℕ) :
    chunk (x :: xs) s ≠ [] := by
  show chunkFuel s (xs.length + 1) (x :: xs) ≠ []
  exact List.cons_ne_nil _ _

theorem snapshotsAux_total (total : ℕ) :
    ∀ (bs : List (List Frame)) (p : ℕ) (x : ℕ × ℕ),
      x ∈ snapshotsAux total bs p → x.2 = total := by
  intro bs
  induction bs with
  | nil => intro p x hx; simp [snapshotsAux] at hx
  | cons b rest ih =>
      intro p x hx
      rcases List.mem_cons.mp hx with rfl | hx'
      · rfl
      · exact ih _ _ hx'

theorem snapshotsAux_chain (total : ℕ) :
    ∀ (bs : List (List Frame)) (p : ℕ),
      List.Chain' (fun a b : ℕ × ℕ => a.1 ≤ b.1)
        ((min p total, total) :: snapshotsAux total bs p) := by
  intro bs
  induction bs with
  | nil => intro p; simp [snapshotsAux]
  | cons b rest ih =>
      intro p
      show List.Chain' _
        ((min p total, total) :: (min (p + b.length) total, total)
          :: snapshotsAux total rest (p + b.length))
      exact List.chain'_cons.mpr
        ⟨min_le_min (Nat.le_add_right p b.length) le_rfl, ih (p + b.length)⟩

theorem snapshotsAux_getLast (total : ℕ) :
    ∀ (bs : List (List Frame)) (p : ℕ), bs ≠ [] →
      (snapshotsAux total bs p).getLast?
        = some (min (p + (bs.map List.length).sum) total, total) := by
  intro bs
  induction bs with
  | nil => intro p h; exact absurd rfl h
  | cons b rest ih =>
      intro p _
      cases rest with
      | nil => simp [snapshotsAux]
      | cons c cs =>
          have step : snapshotsAux total (b :: c :: cs) p
              = (min (p + b.length) total, total)
                :: snapshotsAux total (c :: cs) (p + b.length) := rfl
          have step2 : snapshotsAux total (c :: cs) (p + b.length)
              = (min (p + b.length + c.length) total, total)
                :: snapshotsAux total cs (p + b.length + c.length) := rfl
          have harith : p + b.length + ((c :: cs).map List.length).sum
              = p + ((b :: c :: cs).map List.length).sum := by
            simp only [List.map_cons, List.sum_cons]
            omega
          rw [step, step2, List.getLast?_cons_cons, ← step2,
              ih (p + b.length) (List.cons_ne_nil c cs), harith]

theorem snapshotsAux_get (total : ℕ) :
    ∀ (bs : List (List Frame)) (p k : ℕ), k < bs.length →
      (snapshotsAux total bs p).get? k
        = some (min (p + ((bs.take (k + 1)).map List.length).sum) total, total) := by
  intro bs
  induction bs with
  | nil => intro p k hk; simp at hk
  | cons b rest ih =>
      intro p k hk
      cases k with
      | zero => simp [snapshotsAux]
      | succ k' =>
          have step : snapshotsAux total (b :: rest) p
              = (min (p + b.length) total, total)
                :: snapshotsAux total rest (p + b.length) := rfl
          have harith : p + b.length + ((rest.take (k' + 1)).map List.length).sum
              = p + (((b :: rest).take (k' + 1 + 1)).map List.length).sum := by
            simp only [List.take_succ_cons, List.map_cons, List.sum_cons]
            omega
          rw [step, List.get?_cons_succ,
              ih (p + b.length) k' (by simpa using hk), harith]

/-- C6: RunProgress.total equals the number of frames actually produced by
extraction; starting from the initial `(0, total)` snapshot, each settled
batch advances `processed` by the cumulative batch sizes clamped to
`total`, so `processed` is monotonically non-decreasing and the last
snapshot is `(total, total)`. -/
theorem C6_progress_counters (dur : JSNum) (fps : ℚ) (fr : List Frame) (n : ℕ)
    (hok : extractFrames dur fps = Except.ok (fr, n)) :
    n = fr.length ∧
    (∀ s ∈ initAndSnapshots fr, s.2 = fr.length) ∧
    List.Chain' (fun a b : ℕ × ℕ => a.1 ≤ b.1) (initAndSnapshots fr) ∧
    (∀ k, k < (chunk fr 3).length →
      (dispatchSnapshots fr).get? k =
        some (min (((chunk fr 3).take (k + 1)).map List.length).sum fr.length,
          fr.length)) ∧
    (initAndSnapshots fr).getLast? = some (fr.length, fr.length) := by
  refine ⟨?_, ?_, ?_, ?_, ?_⟩
  · cases dur with
    | finite d =>
        simp only [extractFrames] at hok
        split_ifs at hok with hd
        simp only [Except.ok.injEq, Prod.mk.injEq] at hok
        obtain ⟨h1, h2⟩ := hok
        rw [← h1]
        exact h2.symm
    | nan => simp [extractFrames] at hok
    | inf => simp [extractFrames] at hok
    | negInf => simp [extractFrames] at hok
  · intro s hs
    rcases List.mem_cons.mp hs with rfl | hs'
    · rfl
    · exact snapshotsAux_total _ _ _ _ hs'
  · have h := snapshotsAux_chain fr.length (chunk fr 3) 0
    simpa [initAndSnapshots, dispatchSnapshots] using h
  · intro k hk
    have h := snapshotsAux_get fr.length (chunk fr 3) 0 k hk
    simpa [dispatchSnapshots] using h
  · cases fr with
    | nil => rfl
    | cons x xs =>
        have hne : chunk (x :: xs) 3 ≠ [] := chunk_ne_nil x xs 3
        obtain ⟨b, bs, hbs⟩ : ∃ b bs, chunk (x :: xs) 3 = b :: bs := by
          cases hc : chunk (x :: xs) 3 with
          | nil => exact absurd hc hne
          | cons b bs => exact ⟨b, bs, rfl⟩
        have hsum : ((b :: bs).map List.length).sum = (x :: xs).length := by
          rw [← hbs]
          calc ((chunk (x :: xs) 3).map List.length).sum
              = ((chunk (x :: xs) 3).flatten).length :=
                (List.length_flatten _).symm
            _ = (x :: xs).length := by
                rw [chunk_flatten (x :: xs) 3 (by norm_num)]
        show ((0, (x :: xs).length) :: dispatchSnapshots (x :: xs)).getLast? = _
        unfold dispatchSnapshots
        rw [hbs]
        have step : snapshotsAux (x :: xs).length (b :: bs) 0
            = (min (0 + b.length) (x :: xs).length, (x :: xs).length)
              :: snapshotsAux (x :: xs).length bs (0 + b.length) := rfl
        rw [step, List.getLast?_cons_cons, ← step,
            snapshotsAux_getLast _ _ _ (List.cons_ne_nil b bs), Nat.zero_add,
            hsum, Nat.min_self]

/-- Witness for C6: a 5-second clip at 10 fps extracts 5 frames,
`total = 5`. -/
theorem C6_progress_counters_witness :
    5 = ([(⟨0⟩ : Frame), ⟨1⟩, ⟨2⟩, ⟨3⟩, ⟨4⟩]).length ∧
    (∀ s ∈ initAndSnapshots [(⟨0⟩ : Frame), ⟨1⟩, ⟨2⟩, ⟨3⟩, ⟨4⟩],
      s.2 = ([(⟨0⟩ : Frame), ⟨1⟩, ⟨2⟩, ⟨3⟩, ⟨4⟩]).length) ∧
    List.Chain' (fun a b : ℕ × ℕ => a.1 ≤ b.1)
      (initAndSnapshots [(⟨0⟩ : Frame), ⟨1⟩, ⟨2⟩, ⟨3⟩, ⟨4⟩]) ∧
    (∀ k, k < (chunk [(⟨0⟩ : Frame), ⟨1⟩, ⟨2⟩, ⟨3⟩, ⟨4⟩] 3).length →
      (dispatchSnapshots [(⟨0⟩ : Frame), ⟨1⟩, ⟨2⟩, ⟨3⟩, ⟨4⟩]).get? k =
        some (min (((chunk [(⟨0⟩ : Frame), ⟨1⟩, ⟨2⟩, ⟨3⟩, ⟨4⟩] 3).take
            (k + 1)).map List.length).sum
            ([(⟨0⟩ : Frame), ⟨1⟩, ⟨2⟩, ⟨3⟩, ⟨4⟩]).length,
          ([(⟨0⟩ : Frame), ⟨1⟩, ⟨2⟩, ⟨3⟩, ⟨4⟩]).length)) ∧
    (initAndSnapshots [(⟨0⟩ : Frame), ⟨1⟩, ⟨2⟩, ⟨3⟩, ⟨4⟩]).getLast?
      = some (([(⟨0⟩ : Frame), ⟨1⟩, ⟨2⟩, ⟨3⟩, ⟨4⟩]).length,
          ([(⟨0⟩ : Frame), ⟨1⟩, ⟨2⟩, ⟨3⟩, ⟨4⟩]).length) :=
  C6_progress_counters (JSNum.finite 5) 10 [⟨0⟩, ⟨1⟩, ⟨2⟩, ⟨3⟩, ⟨4⟩] 5
    extractFrames_five_ten

/- ── Aggregator lemmas ───────────────────────────────────────────────── -/

theorem sendFrame_timestamp {t : ℚ} {o : RequestOutcome} {inc : Incident}
    (h : sendFrame t o = some inc) : inc.timestamp = t := by
  cases o with
  | failure => cases h
  | success data =>
      cases hr : data.result with
      | none => rw [sendFrame, hr] at h; cases h
      | some r =>
          simp only [sendFrame, hr] at h
          split_ifs at h with hc
          rw [← Option.some.inj h]

theorem incidentLogAfter_eq (frames : List Frame) (oracle : ℚ → RequestOutcome)
    (k : ℕ) :
    incidentLogAfter frames oracle k =
      (((chunk frames 3).take k).flatten).filterMap
        (fun f => sendFrame f.timestamp (oracle f.timestamp)) := by
  unfold incidentLogAfter
  generalize (chunk frames 3).take k = bs
  induction bs with
  | nil => rfl
  | cons b rest ih =>
      simp only [List.map_cons, List.flatten_cons, List.filterMap_append, ih]

theorem filterMap_map_timestamp (l : List Frame)
    (g : Frame → Option Incident)
    (hg : ∀ f inc, g f = some inc → inc.timestamp = f.timestamp) :
    (l.filterMap g).map Incident.timestamp
      = (l.filter (fun f => (g f).isSome)).map Frame.timestamp := by
  induction l with
  | nil => rfl
  | cons f rest ih =>
      cases hf : g f with
      | none => simp [List.filterMap_cons, List.filter_cons, hf, ih]
      | some inc =>
          simp [List.filterMap_cons, List.filter_cons, hf, ih, hg f inc hf]

theorem taken_flatten_sublist (frames : List Frame) (k : ℕ) :
    ((chunk frames 3).take k).flatten.Sublist frames := by
  have hpre : ((chunk frames 3).take k).flatten
      ++ ((chunk frames 3).drop k).flatten = frames := by
    rw [← List.flatten_append, List.take_append_drop,
        chunk_flatten frames 3 (by norm_num)]
  calc ((chunk frames 3).take k).flatten.Sublist
        (((chunk frames 3).take k).flatten ++ ((chunk frames 3).drop k).flatten) :=
      List.sublist_append_left _ _
    _ = frames := hpre

/-- C7: at every point of a run (after any number `k` of settled batches),
each incident's timestamp is one of the schedule's frame timestamps; the
incident timestamps contain no duplicates (the frame timestamps being
pairwise distinct); and the incidents correspond one-to-one to the positive
inference results — one per settled frame whose outcome was positive, each
incident being exactly that frame's positive result. -/
theorem C7_incident_invariants (frames : List Frame)
    (oracle : ℚ → RequestOutcome) (k : ℕ)
    (hnd : (frames.map Frame.timestamp).Nodup) :
    (∀ inc ∈ incidentLogAfter frames oracle k,
        inc.timestamp ∈ frames.map Frame.timestamp) ∧
    ((incidentLogAfter frames oracle k).map Incident.timestamp).Nodup ∧
    (incidentLogAfter frames oracle k).length =
      (((chunk frames 3).take k).flatten.filter
        (fun f => (sendFrame f.timestamp (oracle f.timestamp)).isSome)).length ∧
    (∀ inc ∈ incidentLogAfter frames oracle k,
        sendFrame inc.timestamp (oracle inc.timestamp) = some inc) := by
  have hg : ∀ (f : Frame) (inc : Incident),
      sendFrame f.timestamp (oracle f.timestamp) = some inc →
        inc.timestamp = f.timestamp := fun f inc h => sendFrame_timestamp h
  have hmap : (incidentLogAfter frames oracle k).map Incident.timestamp
      = (((chunk frames 3).take k).flatten.filter
          (fun f => (sendFrame f.timestamp (oracle f.timestamp)).isSome)).map
            Frame.timestamp := by
    rw [incidentLogAfter_eq]
    exact filterMap_map_timestamp _ _ hg
  refine ⟨?_, ?_, ?_, ?_⟩
  · intro inc hinc
    rw [incidentLogAfter_eq] at hinc
    obtain ⟨f, hf, hsf⟩ := List.mem_filterMap.mp hinc
    rw [sendFrame_timestamp hsf]
    exact List.mem_map_of_mem _ ((taken_flatten_sublist frames k).subset hf)
  · rw [hmap]
    have hsub : (((chunk frames 3).take k).flatten.filter
        (fun f => (sendFrame f.timestamp (oracle f.timestamp)).isSome)).Sublist
          frames :=
      (List.filter_sublist _).trans (taken_flatten_sublist frames k)
    exact hnd.sublist (hsub.map Frame.timestamp)
  · have hlen := congrArg List.length hmap
    rw [List.length_map, List.length_map] at hlen
    exact hlen
  · intro inc hinc
    rw [incidentLogAfter_eq] at hinc
    obtain ⟨f, hf, hsf⟩ := List.mem_filterMap.mp hinc
    rw [sendFrame_timestamp hsf]
    exact hsf

/-- Witness for C7: two frames at timestamps 0 and 1, every request
failing, after one settled batch. -/
theorem C7_incident_invariants_witness :
    (∀ inc ∈ incidentLogAfter [(⟨0⟩ : Frame), ⟨1⟩]
        (fun _ => RequestOutcome.failure) 1,
        inc.timestamp ∈ [(⟨0⟩ : Frame), ⟨1⟩].map Frame.timestamp) ∧
    ((incidentLogAfter [(⟨0⟩ : Frame), ⟨1⟩]
        (fun _ => RequestOutcome.failure) 1).map Incident.timestamp).Nodup ∧
    (incidentLogAfter [(⟨0⟩ : Frame), ⟨1⟩]
        (fun _ => RequestOutcome.failure) 1).length =
      (((chunk [(⟨0⟩ : Frame), ⟨1⟩] 3).take 1).flatten.filter
        (fun f => (sendFrame f.timestamp
          ((fun _ => RequestOutcome.failure) f.timestamp)).isSome)).length ∧
    (∀ inc ∈ incidentLogAfter [(⟨0⟩ : Frame), ⟨1⟩]
        (fun _ => RequestOutcome.failure) 1,
        sendFrame inc.timestamp
          ((fun _ => RequestOutcome.failure) inc.timestamp) = some inc) :=
  C7_incident_invariants [⟨0⟩, ⟨1⟩] (fun _ => RequestOutcome.failure) 1
    (by simp)
